import Mathlib

/-!
# AgriQ allocation system: verification of the spec against the code

Shallow embedding of the AgriQ hackathon repository (Flask app `app.py`,
`logic/climate_service.py`, and the simulated-annealing optimizer core).
Python dictionaries become association lists, floats become rationals,
and every call to the `random` module becomes an explicit parameter
standing for the drawn value, so the embedded functions are pure and
executable.
-/

namespace AgriQ

/-! ## Python numeric helpers

`round(x, n)` in Python rounds half to even (banker's rounding); `int(x)`
truncates toward zero.  We model them over `ℚ`. -/

/-- Round a rational to the nearest integer, ties going to the even
integer, as Python's `round` does. -/
def roundHalfEven (q : ℚ) : ℤ :=
  let f : ℤ := ⌊q⌋
  let r : ℚ := q - f
  if r < 1/2 then f
  else if 1/2 < r then f + 1
  else if f % 2 = 0 then f else f + 1

/-- Python `round(x, 1)`. -/
def pyRound1 (q : ℚ) : ℚ := (roundHalfEven (q * 10) : ℚ) / 10

/-- Python `round(x, 2)`. -/
def pyRound2 (q : ℚ) : ℚ := (roundHalfEven (q * 100) : ℚ) / 100

/-- Python `int(x)`: truncation toward zero. -/
def truncInt (q : ℚ) : ℤ := if q < 0 then -⌊-q⌋ else ⌊q⌋

/-- Python `str.capitalize()`: first character uppercased, the rest
lowercased. -/
def pyCapitalize (s : String) : String :=
  match s.data with
  | [] => ""
  | c :: cs => String.mk (c.toUpper :: cs.map Char.toLower)

/-- Python `random.randint(lo, hi)` (both ends inclusive), modelled as a
function of the generator's raw draw `r`: reducing `r` modulo the size of
the inclusive range maps a uniform `r` to a uniform value in
`[lo, hi]`. -/
def randint (lo hi r : ℕ) : ℕ := lo + r % (hi - lo + 1)

/-! ## `/api/optimize` route handler (`app.py`, lines 167-194)

The handler receives whatever `run_simulated_annealing` returned
(`allocation`, `heatmap_data`), draws `random.randint(94, 99)` for the
confidence embellishment, and builds the JSON response.  The optimizer's
outputs and the random draw enter as explicit arguments. -/

structure OptimizeResponse where
  crop : String
  confidence : String
  heatmap : List (ℕ × String × ℚ)
deriving DecidableEq

/-- The body of the `optimize` route after the optimizer call:
`allocation[0] if allocation else "None"`, a fresh
`random.randint(94, 99)` draw `r`, and the heatmap passed through. -/
def optimizeHandler (allocation : List String) (heatmap : List (ℕ × String × ℚ))
    (r : ℕ) : OptimizeResponse :=
  { crop := allocation.headD "None"
    confidence := toString (randint 94 99 r) ++ "%"
    heatmap := heatmap }

/-! ## `/api/market` route handler (`app.py`, lines 127-160)

Per month: `volatility = random.uniform(-0.1, 0.1)`,
`adjusted_demand = int(base_demand * (1 + volatility))`,
`price = round(4000 / (adjusted_demand if adjusted_demand > 0 else 1), 2)`.
The base demand (from the economist model) and each volatility draw are
parameters. -/

/-- `int(base_demand * (1 + volatility))`. -/
def adjustedDemand (base : ℚ) (vol : ℚ) : ℤ := truncInt (base * (1 + vol))

/-- The divisor actually used in the price formula:
`adjusted_demand if adjusted_demand > 0 else 1`. -/
def marketDivisor (base : ℚ) (vol : ℚ) : ℤ :=
  if 0 < adjustedDemand base vol then adjustedDemand base vol else 1

/-- One month's price: `round(4000 / divisor, 2)`. -/
def marketPrice (base : ℚ) (vol : ℚ) : ℚ :=
  pyRound2 (4000 / (marketDivisor base vol : ℚ))

/-- The six-month series: one `(price, demand)` pair per volatility
draw. -/
def marketSeries (base : ℚ) (vols : List ℚ) : List (ℚ × ℤ) :=
  vols.map (fun v => (marketPrice base v, adjustedDemand base v))

/-! ## `/api/analyze` route handler (`app.py`, lines 70-124)

`SOIL_NUTRIENT_MAP`, the crop loop over `CROPS_LIST`, the traffic-light
status, and the descending stable sort by score.  The agronomist model
`predict_feasibility` lives in `logic/logic.py` (not part of the core
being specified; the spec treats the feasibility scorer as an external
collaborator), so it enters as an opaque function argument `predict`
taking the crop and the chemical profile. -/

structure NPK where
  n : ℚ
  p : ℚ
  k : ℚ
deriving DecidableEq

def CROPS_LIST : List String :=
  ["Wheat", "Tomato", "Olive", "Banana", "Grapes", "Watermelon", "Strawberry"]

def SOIL_NUTRIENT_MAP : List (String × NPK) :=
  [("Clay", ⟨80, 60, 70⟩), ("Loamy", ⟨60, 50, 60⟩),
   ("Sandy", ⟨30, 20, 30⟩), ("Default", ⟨50, 50, 50⟩)]

/-- `SOIL_NUTRIENT_MAP.get(soil_type, SOIL_NUTRIENT_MAP['Default'])`. -/
def chemProfile (soil : String) : NPK :=
  (SOIL_NUTRIENT_MAP.lookup soil).getD
    ((SOIL_NUTRIENT_MAP.lookup "Default").getD ⟨0, 0, 0⟩)

structure CropResult where
  name : String
  score : ℚ
  status : String
deriving DecidableEq

/-- One entry of the analyze results list: the raw predicted score
drives the status thresholds, the stored score is rounded to two
decimals. -/
def cropEntry (predict : String → NPK → ℚ) (prof : NPK) (c : String) : CropResult :=
  let s := predict c prof
  { name := c
    score := pyRound2 s
    status := if 75 < s then "green" else if 45 < s then "yellow" else "red" }

/-- The `analyze` handler's crop list: score every crop in `CROPS_LIST`
against the soil's chemical profile, then sort descending by score
(Python's `sorted` with `reverse=True` is a stable sort). -/
def analyze (soil : String) (predict : String → NPK → ℚ) : List CropResult :=
  (CROPS_LIST.map (cropEntry predict (chemProfile soil))).mergeSort
    (fun a b => b.score ≤ a.score)

/-! ## Climate service (`logic/climate_service.py`)

`get_seasonal_forecast` looks up the district profile (falling back to
Jenin), applies the seasonal modifiers for the current month, draws
`random.uniform(0.8, 1.2)` for the rainfall variation, and builds the
response dictionary.  The current month and the uniform draw are
parameters. -/

structure ClimateProfile where
  base_temp : ℚ
  rain_factor : ℚ
  ctype : String
deriving DecidableEq

def jeninProfile : ClimateProfile := ⟨25, 12/10, "Mediterranean"⟩

def climate_profiles : List (String × ClimateProfile) :=
  [("Jenin", jeninProfile),
   ("Jericho", ⟨32, 2/10, "Arid"⟩),
   ("Hebron", ⟨18, 11/10, "Highland"⟩),
   ("Nablus", ⟨22, 13/10, "Mediterranean"⟩),
   ("Tulkarm", ⟨24, 14/10, "Coastal Plain"⟩),
   ("Gaza", ⟨26, 9/10, "Coastal"⟩),
   ("Ramallah", ⟨20, 12/10, "Highland"⟩)]

def districtKeys : List String :=
  ["Jenin", "Jericho", "Hebron", "Nablus", "Tulkarm", "Gaza", "Ramallah"]

/-- `self.climate_profiles.get(city, self.climate_profiles['Jenin'])`. -/
def lookupProfile (city : String) : ClimateProfile :=
  (climate_profiles.lookup city).getD jeninProfile

/-- `_get_season_modifiers(month)`: `(season name, temp modifier, rain
modifier)`. -/
def seasonModifiers (month : ℕ) : String × ℚ × ℚ :=
  if month = 12 ∨ month = 1 ∨ month = 2 then ("Winter", -8, 2)
  else if month = 3 ∨ month = 4 ∨ month = 5 then ("Spring", 0, 8/10)
  else if month = 6 ∨ month = 7 ∨ month = 8 then ("Summer", 8, 0)
  else ("Autumn", -2, 1/2)

/-- `_calculate_risk(temp, rain, c_type)`. -/
def calculateRisk (temp rain : ℚ) (ctype : String) : String :=
  if 38 < temp then "High Heat Stress"
  else if temp < 5 then "Frost Warning"
  else if ctype = "Arid" ∧ 100 < rain then "Flash Flood Risk"
  else "Stable"

/-- A JSON-ish value in the forecast dictionary. -/
inductive JVal where
  | s (v : String)
  | q (v : ℚ)
deriving DecidableEq

/-- The response dictionary built from a profile: projected temperature
`base_temp + temp_mod`, projected rainfall
`rain_factor * rain_mod * u * 50` with `u` the uniform draw, rounded for
display, risk computed from the unrounded projections. -/
def buildForecast (city : String) (p : ClimateProfile) (month : ℕ) (u : ℚ) :
    List (String × JVal) :=
  let sn := (seasonModifiers month).1
  let tempMod := (seasonModifiers month).2.1
  let rainMod := (seasonModifiers month).2.2
  let ptemp := p.base_temp + tempMod
  let prain := p.rain_factor * rainMod * u * 50
  [("location", .s city),
   ("season_name", .s sn),
   ("avg_temp_c", .q (pyRound1 ptemp)),
   ("rainfall_mm", .q (pyRound1 prain)),
   ("climate_type", .s p.ctype),
   ("risk_factor", .s (calculateRisk ptemp prain p.ctype))]

/-- `ClimateService.get_seasonal_forecast(location)`: capitalize the
location, look up the profile (Jenin fallback), build the response. -/
def getSeasonalForecast (location : String) (month : ℕ) (u : ℚ) :
    List (String × JVal) :=
  let city := pyCapitalize location
  buildForecast city (lookupProfile city) month u

/-! ## Simulated-annealing optimizer core

Modelled from the spec: `QuantumOptimizer.run_simulated_annealing` lives
in `logic/logic.py`, which is not among the provided source files (only
its caller `app.py` is), so the engine below follows the specification
(§3, §4.1, §4.3, §4.4, §6, §7) directly.

Representation choices:
- A farmer is a record with an identifier and a capacity defaulting to 1
  unit (§3).
- The crop set is the set of keys of the demand map; crops with zero or
  missing demand have target 0 (§4.1).
- An allocation state is a list of crop names parallel to the farmer
  list, so every farmer carries exactly one assignment at all times.
- The explicitly seeded random generator (§4.4) is represented by the
  stream of values it produces: the per-farmer draw for the initial
  random assignment, the per-step farmer and replacement-crop draws, and
  the outcome of the per-step Metropolis comparison
  `u < exp(-dE/T)` (given the drawn uniform `u`, a Boolean function of
  `dE` and the temperature).  A seed determines the whole stream.
- The engine recomputes the candidate's energy in full; the spec's O(1)
  delta update computes the same value, so the result is unchanged.
-/

structure Farmer where
  id : ℕ
  capacity : ℚ := 1
deriving DecidableEq

inductive OptError where
  | emptyCluster
  | invalidDemand
  | insufficientCrops
deriving DecidableEq

/-- Modelled from the spec: the optimizer configuration recognized by
the entry point (§6), with the spec's suggested defaults. -/
structure AnnealConfig where
  maxIterations : ℕ := 10000
  initialTemperature : ℚ := 1000
  coolingRate : ℚ := 995/1000
  infeasibilityWeight : ℚ := 1
  temperatureFloor : ℚ := 1/1000

/-- Modelled from the spec: the seeded random generator, represented by
its stream of draws (§4.4, §9). -/
structure Rng where
  initPick : ℕ → ℕ
  farmerPick : ℕ → ℕ
  cropPick : ℕ → ℕ
  accept : ℕ → ℚ → ℚ → Bool

/-- The Feasibility Adapter's clamp of an external score into
`[0, 100]` (§4.2). -/
def clampScore (q : ℚ) : ℚ := max 0 (min 100 q)

/-- The crop set: the keys of the demand map. -/
def cropKeys (demand : List (String × ℚ)) : List String :=
  (demand.map Prod.fst).dedup

/-- Demand target for a crop; crops missing from the map count as
demand 0 (§4.1). -/
def targetOf (demand : List (String × ℚ)) (c : String) : ℚ :=
  (demand.lookup c).getD 0

/-- `producedByCrop[c]`: summed capacity of the farmers assigned to `c`,
over the farmer/assignment pair list (§3). -/
def prodList : List (Farmer × String) → String → ℚ
  | [], _ => 0
  | p :: l, c => (if p.2 = c then p.1.capacity else 0) + prodList l c

/-- `infeasibilityTerm`: `Σ_farmers (100 - score(farmer, crop))`, with
the adapter's clamp applied (§4.3). -/
def infeasList (score : ℕ → String → ℚ) : List (Farmer × String) → ℚ
  | [] => 0
  | p :: l => (100 - clampScore (score p.1.id p.2)) + infeasList score l

/-- `demandTerm`: `Σ_crops (producedByCrop[c] - target[c])²` (§4.3). -/
def demandTerm (demand : List (String × ℚ)) (l : List (Farmer × String)) : ℚ :=
  ((cropKeys demand).map (fun c => (prodList l c - targetOf demand c) ^ 2)).sum

/-- `energy(state) = demandTerm + λ · infeasibilityTerm` (§4.3). -/
def saEnergy (demand : List (String × ℚ)) (lam : ℚ) (score : ℕ → String → ℚ)
    (l : List (Farmer × String)) : ℚ :=
  demandTerm demand l + lam * infeasList score l

/-- The Annealing Engine's mutable state: current assignment and energy,
best snapshot, temperature (§3, §4.4). -/
structure AnnealState where
  assign : List String
  energy : ℚ
  bestAssign : List String
  bestEnergy : ℚ
  temp : ℚ

/-- Initial random valid allocation: every farmer gets a uniformly
random crop from the available set (§4.4). -/
def initAssign (N : ℕ) (crops : List String) (rng : Rng) : List String :=
  (List.range N).map (fun j => crops.getD (rng.initPick j % crops.length) "")

/-- The initial engine state: random assignment, its energy, best
snapshot = initial state, temperature = `T0` (§4.4). -/
def initState (farmers : List Farmer) (demand : List (String × ℚ))
    (cfg : AnnealConfig) (score : ℕ → String → ℚ) (rng : Rng) : AnnealState :=
  let a0 := initAssign farmers.length (cropKeys demand) rng
  let e0 := saEnergy demand cfg.infeasibilityWeight score (farmers.zip a0)
  ⟨a0, e0, a0, e0, cfg.initialTemperature⟩

/-- One annealing step (§4.4): pick a farmer uniformly at random, pick a
replacement crop uniformly from the remaining crops, compute the energy
delta, accept unconditionally if `dE ≤ 0` and otherwise by the
Metropolis draw; on acceptance mutate the assignment and update the best
snapshot when strictly better; then cool the temperature. -/
def annealStep (farmers : List Farmer) (demand : List (String × ℚ))
    (cfg : AnnealConfig) (score : ℕ → String → ℚ) (rng : Rng)
    (t : ℕ) (s : AnnealState) : AnnealState :=
  let crops := cropKeys demand
  let i := rng.farmerPick t % farmers.length
  let cur := s.assign.getD i ""
  let others := crops.filter (fun c => c ≠ cur)
  let newCrop := others.getD (rng.cropPick t % others.length) cur
  let cand := s.assign.set i newCrop
  let newE := saEnergy demand cfg.infeasibilityWeight score (farmers.zip cand)
  if newE - s.energy ≤ 0 ∨ rng.accept t (newE - s.energy) s.temp then
    if newE < s.bestEnergy then
      { assign := cand, energy := newE, bestAssign := cand,
        bestEnergy := newE, temp := s.temp * cfg.coolingRate }
    else
      { assign := cand, energy := newE, bestAssign := s.bestAssign,
        bestEnergy := s.bestEnergy, temp := s.temp * cfg.coolingRate }
  else
    { assign := s.assign, energy := s.energy, bestAssign := s.bestAssign,
      bestEnergy := s.bestEnergy, temp := s.temp * cfg.coolingRate }

/-- The step/cool loop: run until the iteration budget is exhausted or
the temperature falls below the floor, whichever first (§4.4). -/
def annealLoop (farmers : List Farmer) (demand : List (String × ℚ))
    (cfg : AnnealConfig) (score : ℕ → String → ℚ) (rng : Rng) :
    ℕ → ℕ → AnnealState → AnnealState
  | 0, _, s => s
  | fuel + 1, t, s =>
    if s.temp < cfg.temperatureFloor then s
    else annealLoop farmers demand cfg score rng fuel (t + 1)
      (annealStep farmers demand cfg score rng t s)

/-- The terminal engine state of a run. -/
def finalState (farmers : List Farmer) (demand : List (String × ℚ))
    (cfg : AnnealConfig) (score : ℕ → String → ℚ) (rng : Rng) : AnnealState :=
  annealLoop farmers demand cfg score rng cfg.maxIterations 0
    (initState farmers demand cfg score rng)

/-- The returned result: the best snapshot's farmer→crop allocation and
its energy (§4.4, §4.5: return the best snapshot, not the final
state). -/
def resultOf (farmers : List Farmer) (demand : List (String × ℚ))
    (cfg : AnnealConfig) (score : ℕ → String → ℚ) (rng : Rng) :
    List (ℕ × String) × ℚ :=
  ((farmers.map Farmer.id).zip (finalState farmers demand cfg score rng).bestAssign,
   (finalState farmers demand cfg score rng).bestEnergy)

/-- Modelled from the spec: the optimizer entry point (§6), with the
input validation of §4.1 and §4.4 raised before any search work: empty
cluster first (regardless of demand content), then degenerate demand,
then an insufficient crop set. -/
def runSA (farmers : List Farmer) (demand : List (String × ℚ))
    (cfg : AnnealConfig) (score : ℕ → String → ℚ) (rng : Rng) :
    Except OptError (List (ℕ × String) × ℚ) :=
  if farmers.isEmpty then .error .emptyCluster
  else if demand.isEmpty ∨ (demand.map Prod.snd).sum = 0 then .error .invalidDemand
  else if (cropKeys demand).length < 2 then .error .insufficientCrops
  else .ok (resultOf farmers demand cfg score rng)

/-- The mock cluster the `/api/optimize` route builds:
`{i: {} for i in range(10)}`, ten farmers with default capacity 1. -/
def routeFarmers : List Farmer := (List.range 10).map (fun i => { id := i })

/-- The route's demand map: `{'Tomato': 20, 'Wheat': 15, 'Olive': 15}`. -/
def routeDemand : List (String × ℚ) :=
  [("Tomato", 20), ("Wheat", 15), ("Olive", 15)]

/-- A small concrete cluster for exercising the engine. -/
def wFarmers : List Farmer := [{ id := 0 }, { id := 1 }]

/-- A small concrete demand map for exercising the engine. -/
def wDemand : List (String × ℚ) := [("A", 1), ("B", 1)]

/-- A small concrete configuration for exercising the engine. -/
def wCfg : AnnealConfig :=
  { maxIterations := 2, initialTemperature := 1, coolingRate := 1/2,
    infeasibilityWeight := 0, temperatureFloor := 1/100 }

/-- A constant feasibility scorer for exercising the engine. -/
def wScore : ℕ → String → ℚ := fun _ _ => 50

/-- A concrete random stream for exercising the engine. -/
def wRng : Rng := ⟨fun _ => 0, fun _ => 0, fun _ => 0, fun _ _ _ => false⟩

/-- The running invariant of the Annealing Engine's state: both the
current assignment and the best snapshot assign one crop from the
available set to every farmer, and the best snapshot's energy never
exceeds `e0`, the initial state's energy. -/
def stateOK (N : ℕ) (crops : List String) (e0 : ℚ) (s : AnnealState) : Prop :=
  s.assign.length = N ∧ s.bestAssign.length = N ∧
  (∀ c ∈ s.assign, c ∈ crops) ∧ (∀ c ∈ s.bestAssign, c ∈ crops) ∧
  s.bestEnergy ≤ e0

/-! ## Theorems -/

theorem getD_mem_of_lt {α : Type} (l : List α) (k : ℕ) (d : α)
    (h : k < l.length) : l.getD k d ∈ l := by
  rw [List.getD_eq_getElem l d h]
  exact List.getElem_mem h

theorem getD_mem_or_eq {α : Type} (l : List α) (k : ℕ) (d : α) :
    l.getD k d ∈ l ∨ l.getD k d = d := by
  rcases lt_or_ge k l.length with h | h
  · exact Or.inl (getD_mem_of_lt l k d h)
  · right
    rw [List.getD_eq_getElem?_getD, List.getElem?_eq_none h, Option.getD_none]

theorem sum_map_add {α : Type} (l : List α) (f g : α → ℚ) :
    (l.map fun a => f a + g a).sum = (l.map f).sum + (l.map g).sum := by
  induction l with
  | nil => simp
  | cons a l ih => simp [ih]; ring

theorem sum_ite_zero (l : List String) (x : String) (v : ℚ) (hx : x ∉ l) :
    (l.map fun c => if x = c then v else 0).sum = 0 := by
  induction l with
  | nil => simp
  | cons a l ih =>
    have hxa : x ≠ a := fun h => hx (h ▸ List.mem_cons_self a l)
    have hxl : x ∉ l := fun h => hx (List.mem_cons_of_mem a h)
    simp [hxa, ih hxl]

theorem sum_ite_single (l : List String) (x : String) (v : ℚ)
    (hnd : l.Nodup) (hx : x ∈ l) :
    (l.map fun c => if x = c then v else 0).sum = v := by
  induction l with
  | nil => cases hx
  | cons a l ih =>
    rcases List.mem_cons.1 hx with h | h
    · subst h
      have : x ∉ l := (List.nodup_cons.1 hnd).1
      simp [sum_ite_zero l x v this]
    · have hxa : x ≠ a := by
        rintro rfl
        exact (List.nodup_cons.1 hnd).1 h
      simp [hxa, ih (List.nodup_cons.1 hnd).2 h]

theorem sum_nonneg_of_mem (l : List ℚ) (h : ∀ x ∈ l, 0 ≤ x) : 0 ≤ l.sum := by
  induction l with
  | nil => simp
  | cons a l ih =>
    simp only [List.sum_cons]
    have ha := h a (List.mem_cons_self a l)
    have hl := ih (fun x hx => h x (List.mem_cons_of_mem a hx))
    linarith

theorem all_zero_of_sum_zero (l : List ℚ) (h : ∀ x ∈ l, 0 ≤ x)
    (hs : l.sum = 0) : ∀ x ∈ l, x = 0 := by
  induction l with
  | nil => intro x hx; cases hx
  | cons a l ih =>
    simp only [List.sum_cons] at hs
    have ha := h a (List.mem_cons_self a l)
    have hl : 0 ≤ l.sum :=
      sum_nonneg_of_mem l (fun x hx => h x (List.mem_cons_of_mem a hx))
    have ha0 : a = 0 := by linarith
    have hl0 : l.sum = 0 := by linarith
    intro x hx
    rcases List.mem_cons.1 hx with rfl | hx
    · exact ha0
    · exact ih (fun y hy => h y (List.mem_cons_of_mem a hy)) hl0 x hx

theorem prodList_total (crops : List String) (l : List (Farmer × String))
    (hnd : crops.Nodup) (hcov : ∀ p ∈ l, p.2 ∈ crops) :
    (crops.map (prodList l)).sum = (l.map fun p => p.1.capacity).sum := by
  induction l with
  | nil =>
    have : crops.map (prodList []) = crops.map fun _ => (0 : ℚ) :=
      List.map_congr_left (fun c _ => rfl)
    simp [this]
  | cons p l ih =>
    have hstep : crops.map (prodList (p :: l)) =
        crops.map fun c =>
          (if p.2 = c then p.1.capacity else 0) + prodList l c :=
      List.map_congr_left (fun c _ => rfl)
    rw [hstep, sum_map_add,
      sum_ite_single crops p.2 p.1.capacity hnd (hcov p (List.mem_cons_self p l)),
      ih (fun q hq => hcov q (List.mem_cons_of_mem p hq))]
    simp

theorem demandTerm_nonneg (demand : List (String × ℚ))
    (l : List (Farmer × String)) : 0 ≤ demandTerm demand l := by
  apply sum_nonneg_of_mem
  intro x hx
  rcases List.mem_map.1 hx with ⟨c, _, rfl⟩
  exact sq_nonneg _

theorem demandTerm_pos (demand : List (String × ℚ)) (l : List (Farmer × String))
    (hcov : ∀ p ∈ l, p.2 ∈ cropKeys demand)
    (hne : ((cropKeys demand).map (targetOf demand)).sum ≠
      (l.map fun p => p.1.capacity).sum) :
    0 < demandTerm demand l := by
  rcases lt_or_eq_of_le (demandTerm_nonneg demand l) with h | h
  · exact h
  · exfalso
    apply hne
    have hz : ∀ x ∈ (cropKeys demand).map
        (fun c => (prodList l c - targetOf demand c) ^ 2), x = 0 := by
      apply all_zero_of_sum_zero
      · intro x hx
        rcases List.mem_map.1 hx with ⟨c, _, rfl⟩
        exact sq_nonneg _
      · exact h.symm
    have heq : ∀ c ∈ cropKeys demand, prodList l c = targetOf demand c := by
      intro c hc
      have := hz _ (List.mem_map_of_mem _ hc)
      have := sq_eq_zero_iff.1 this
      linarith [this]
    calc ((cropKeys demand).map (targetOf demand)).sum
        = ((cropKeys demand).map (prodList l)).sum := by
          rw [List.map_congr_left (fun c hc => (heq c hc).symm)]
      _ = (l.map fun p => p.1.capacity).sum :=
          prodList_total (cropKeys demand) l (List.nodup_dedup _) hcov

theorem annealStep_stateOK {farmers : List Farmer} {demand : List (String × ℚ)}
    {cfg : AnnealConfig} {score : ℕ → String → ℚ} {rng : Rng} {t : ℕ}
    {e0 : ℚ} {s : AnnealState} (hN : 0 < farmers.length)
    (h : stateOK farmers.length (cropKeys demand) e0 s) :
    stateOK farmers.length (cropKeys demand) e0
      (annealStep farmers demand cfg score rng t s) := by
  obtain ⟨h1, h2, h3, h4, h5⟩ := h
  have hi : rng.farmerPick t % farmers.length < s.assign.length := by
    rw [h1]; exact Nat.mod_lt _ hN
  have hcur : s.assign.getD (rng.farmerPick t % farmers.length) "" ∈ cropKeys demand :=
    h3 _ (getD_mem_of_lt _ _ _ hi)
  set cur := s.assign.getD (rng.farmerPick t % farmers.length) "" with hcurdef
  have hnew : ((cropKeys demand).filter (fun c => c ≠ cur)).getD
      (rng.cropPick t % ((cropKeys demand).filter (fun c => c ≠ cur)).length) cur ∈
      cropKeys demand := by
    rcases getD_mem_or_eq ((cropKeys demand).filter (fun c => c ≠ cur))
        (rng.cropPick t % ((cropKeys demand).filter (fun c => c ≠ cur)).length) cur with
      hm | he
    · exact List.mem_of_mem_filter hm
    · rw [he]; exact hcur
  have hcand : ∀ c ∈ s.assign.set (rng.farmerPick t % farmers.length)
      (((cropKeys demand).filter (fun c => c ≠ cur)).getD
        (rng.cropPick t % ((cropKeys demand).filter (fun c => c ≠ cur)).length) cur),
      c ∈ cropKeys demand := by
    intro c hc
    rcases List.mem_or_eq_of_mem_set hc with hc | rfl
    · exact h3 c hc
    · exact hnew
  have hlen : (s.assign.set (rng.farmerPick t % farmers.length)
      (((cropKeys demand).filter (fun c => c ≠ cur)).getD
        (rng.cropPick t % ((cropKeys demand).filter (fun c => c ≠ cur)).length) cur)).length
      = farmers.length := by
    rw [List.length_set, h1]
  unfold annealStep
  dsimp only
  split
  · split
    · next hlt => exact ⟨hlen, hlen, hcand, hcand, le_of_lt (lt_of_lt_of_le hlt h5)⟩
    · exact ⟨hlen, h2, hcand, h4, h5⟩
  · exact ⟨h1, h2, h3, h4, h5⟩

theorem annealLoop_stateOK {farmers : List Farmer} {demand : List (String × ℚ)}
    {cfg : AnnealConfig} {score : ℕ → String → ℚ} {rng : Rng}
    {e0 : ℚ} (hN : 0 < farmers.length) :
    ∀ (fuel t : ℕ) (s : AnnealState),
      stateOK farmers.length (cropKeys demand) e0 s →
      stateOK farmers.length (cropKeys demand) e0
        (annealLoop farmers demand cfg score rng fuel t s) := by
  intro fuel
  induction fuel with
  | zero => intro t s h; exact h
  | succ fuel ih =>
    intro t s h
    rw [annealLoop]
    split
    · exact h
    · exact ih (t + 1) _ (annealStep_stateOK hN h)

theorem initAssign_length (N : ℕ) (crops : List String) (rng : Rng) :
    (initAssign N crops rng).length = N := by
  simp [initAssign]

theorem initAssign_mem (N : ℕ) (crops : List String) (rng : Rng)
    (hc : 0 < crops.length) : ∀ c ∈ initAssign N crops rng, c ∈ crops := by
  intro c hcm
  rcases List.mem_map.1 hcm with ⟨j, _, rfl⟩
  exact getD_mem_of_lt _ _ _ (Nat.mod_lt _ hc)

theorem initState_stateOK (farmers : List Farmer) (demand : List (String × ℚ))
    (cfg : AnnealConfig) (score : ℕ → String → ℚ) (rng : Rng)
    (hc : 0 < (cropKeys demand).length) :
    stateOK farmers.length (cropKeys demand)
      (initState farmers demand cfg score rng).energy
      (initState farmers demand cfg score rng) := by
  refine ⟨initAssign_length _ _ _, initAssign_length _ _ _,
    initAssign_mem _ _ _ hc, initAssign_mem _ _ _ hc, le_refl _⟩

theorem finalState_stateOK (farmers : List Farmer) (demand : List (String × ℚ))
    (cfg : AnnealConfig) (score : ℕ → String → ℚ) (rng : Rng)
    (hN : 0 < farmers.length) (hc : 0 < (cropKeys demand).length) :
    stateOK farmers.length (cropKeys demand)
      (initState farmers demand cfg score rng).energy
      (finalState farmers demand cfg score rng) :=
  annealLoop_stateOK hN cfg.maxIterations 0 _
    (initState_stateOK farmers demand cfg score rng hc)

/-- Unpacking the entry point: a successful run is exactly a run whose
input passed the three validations, and it returns `resultOf`. -/
theorem runSA_ok_iff (farmers : List Farmer) (demand : List (String × ℚ))
    (cfg : AnnealConfig) (score : ℕ → String → ℚ) (rng : Rng)
    (res : List (ℕ × String) × ℚ) :
    runSA farmers demand cfg score rng = .ok res ↔
      (¬farmers.isEmpty ∧ ¬(demand.isEmpty ∨ (demand.map Prod.snd).sum = 0) ∧
        ¬((cropKeys demand).length < 2) ∧ res = resultOf farmers demand cfg score rng) := by
  unfold runSA
  split
  · next h => simp [h]
  · split
    · next h2 => simp_all
    · split
      · next h3 => simp_all
      · next h1 h2 h3 =>
        simp only [Except.ok.injEq]
        constructor
        · intro h; exact ⟨by simpa using h1, h2, h3, h.symm⟩
        · rintro ⟨_, _, _, rfl⟩; rfl

/-- Claim C2: for every pair of optimizer runs over the same farmers,
demand map, and config with the same fixed seed, the two runs produce
identical allocations.  The seeded generator is represented by its draw
stream `rng`, which a seed determines. -/
theorem run_deterministic_of_same_seed (farmers₁ farmers₂ : List Farmer)
    (demand₁ demand₂ : List (String × ℚ)) (cfg₁ cfg₂ : AnnealConfig)
    (score : ℕ → String → ℚ) (rng₁ rng₂ : Rng)
    (hf : farmers₁ = farmers₂) (hd : demand₁ = demand₂)
    (hc : cfg₁ = cfg₂) (hr : rng₁ = rng₂) :
    runSA farmers₁ demand₁ cfg₁ score rng₁ =
      runSA farmers₂ demand₂ cfg₂ score rng₂ := by
  subst hf; subst hd; subst hc; subst hr; rfl

/-- Witness for C2 at a concrete input. -/
theorem run_deterministic_of_same_seed_witness :
    runSA wFarmers wDemand wCfg wScore wRng = runSA wFarmers wDemand wCfg wScore wRng :=
  run_deterministic_of_same_seed wFarmers wFarmers wDemand wDemand wCfg wCfg
    wScore wRng wRng rfl rfl rfl rfl

/-- Claim C3: for every run of the annealing optimizer that reaches
termination (every run terminates, its loop being bounded by the
iteration budget), every farmer in the input set appears in the output
allocation exactly once — no farmer missing, none duplicated — and no
partially-assigned allocation is returned: the allocation's key list is
exactly the farmer id list. -/
theorem run_allocation_exactly_once (farmers : List Farmer)
    (demand : List (String × ℚ)) (cfg : AnnealConfig)
    (score : ℕ → String → ℚ) (rng : Rng) (alloc : List (ℕ × String)) (e : ℚ)
    (hrun : runSA farmers demand cfg score rng = .ok (alloc, e))
    (hids : (farmers.map Farmer.id).Nodup) :
    alloc.map Prod.fst = farmers.map Farmer.id ∧
      ∀ f ∈ farmers, (alloc.map Prod.fst).count f.id = 1 := by
  obtain ⟨hne, _, hcrops, hres⟩ :=
    (runSA_ok_iff farmers demand cfg score rng (alloc, e)).1 hrun
  have hN : 0 < farmers.length := by
    cases farmers with
    | nil => simp at hne
    | cons a l => simp
  have hc : 0 < (cropKeys demand).length := by omega
  have hok := finalState_stateOK farmers demand cfg score rng hN hc
  have hlen : (finalState farmers demand cfg score rng).bestAssign.length =
      farmers.length := hok.2.1
  have halloc : alloc = (farmers.map Farmer.id).zip
      (finalState farmers demand cfg score rng).bestAssign := by
    have := congrArg Prod.fst hres
    simpa [resultOf] using this
  have hmap : alloc.map Prod.fst = farmers.map Farmer.id := by
    rw [halloc]
    exact List.map_fst_zip _ _ (by simp [hlen])
  refine ⟨hmap, fun f hf => ?_⟩
  rw [hmap]
  exact List.count_eq_one_of_mem hids (List.mem_map_of_mem _ hf)

/-- Witness for C3 at a concrete input. -/
theorem run_allocation_exactly_once_witness :
    (resultOf wFarmers wDemand wCfg wScore wRng).1.map Prod.fst =
        wFarmers.map Farmer.id ∧
      ∀ f ∈ wFarmers,
        ((resultOf wFarmers wDemand wCfg wScore wRng).1.map Prod.fst).count f.id = 1 :=
  run_allocation_exactly_once wFarmers wDemand wCfg wScore wRng
    (resultOf wFarmers wDemand wCfg wScore wRng).1
    (resultOf wFarmers wDemand wCfg wScore wRng).2
    ((runSA_ok_iff wFarmers wDemand wCfg wScore wRng _).2
      ⟨by decide, by simp [wDemand], by decide, rfl⟩)
    (by decide)

/-- Claim C4: for every optimizer run with `maxIterations ≥ 1`, the
energy of the returned best snapshot is at most the energy of the
initial random state (this in fact holds for every run, the best
snapshot starting at the initial state and only ever being replaced by
strictly better states). -/
theorem run_best_le_initial (farmers : List Farmer)
    (demand : List (String × ℚ)) (cfg : AnnealConfig)
    (score : ℕ → String → ℚ) (rng : Rng) (alloc : List (ℕ × String)) (e : ℚ)
    (hrun : runSA farmers demand cfg score rng = .ok (alloc, e))
    (_hiter : 1 ≤ cfg.maxIterations) :
    e ≤ saEnergy demand cfg.infeasibilityWeight score
      (farmers.zip (initAssign farmers.length (cropKeys demand) rng)) := by
  obtain ⟨hne, _, hcrops, hres⟩ :=
    (runSA_ok_iff farmers demand cfg score rng (alloc, e)).1 hrun
  have hN : 0 < farmers.length := by
    cases farmers with
    | nil => simp at hne
    | cons a l => simp
  have hc : 0 < (cropKeys demand).length := by omega
  have hok := finalState_stateOK farmers demand cfg score rng hN hc
  have he : e = (finalState farmers demand cfg score rng).bestEnergy := by
    have := congrArg Prod.snd hres
    simpa [resultOf] using this
  rw [he]
  exact hok.2.2.2.2

/-- Witness for C4 at a concrete input. -/
theorem run_best_le_initial_witness :
    (resultOf wFarmers wDemand wCfg wScore wRng).2 ≤
      saEnergy wDemand wCfg.infeasibilityWeight wScore
        (wFarmers.zip (initAssign wFarmers.length (cropKeys wDemand) wRng)) :=
  run_best_le_initial wFarmers wDemand wCfg wScore wRng
    (resultOf wFarmers wDemand wCfg wScore wRng).1
    (resultOf wFarmers wDemand wCfg wScore wRng).2
    ((runSA_ok_iff wFarmers wDemand wCfg wScore wRng _).2
      ⟨by decide, by simp [wDemand], by decide, rfl⟩)
    (by decide)

/-- Claim C6: for every demand map, configuration, scorer and random
stream, running the optimizer on an empty farmer set yields
`EmptyClusterError` — regardless of demand content, before any search
work, with no allocation returned. -/
theorem emptyCluster_of_no_farmers (demand : List (String × ℚ))
    (cfg : AnnealConfig) (score : ℕ → String → ℚ) (rng : Rng) :
    runSA [] demand cfg score rng = .error .emptyCluster := rfl

theorem zip_map_capacity (fs : List Farmer) (as : List String)
    (h : fs.length ≤ as.length) :
    ((fs.zip as).map fun p => p.1.capacity).sum = (fs.map Farmer.capacity).sum := by
  have h1 : ((fs.zip as).map fun p => p.1.capacity) =
      ((fs.zip as).map Prod.fst).map Farmer.capacity := by
    rw [List.map_map]
    rfl
  rw [h1, List.map_fst_zip fs as h]

/-- Claim C5: on the oversubscribed input the `/api/optimize` route
constructs (ten farmers of capacity 1 and demand
`{Tomato: 20, Wheat: 15, Olive: 15}`, total demand 50 against total
capacity 10), the optimizer terminates with a full assignment for any
configuration, scorer and random stream — it never fails — and the
demand-term energy of the returned best snapshot is strictly
positive. -/
theorem route_oversubscribed_full_and_positive (cfg : AnnealConfig)
    (score : ℕ → String → ℚ) (rng : Rng) :
    ∃ (alloc : List (ℕ × String)) (e : ℚ),
      runSA routeFarmers routeDemand cfg score rng = .ok (alloc, e) ∧
      alloc.map Prod.fst = List.range 10 ∧
      0 < demandTerm routeDemand (routeFarmers.zip (alloc.map Prod.snd)) := by
  have hN : 0 < routeFarmers.length := by decide
  have hc : 0 < (cropKeys routeDemand).length := by decide
  have hok := finalState_stateOK routeFarmers routeDemand cfg score rng hN hc
  have hlen : (finalState routeFarmers routeDemand cfg score rng).bestAssign.length =
      routeFarmers.length := hok.2.1
  refine ⟨(resultOf routeFarmers routeDemand cfg score rng).1,
    (resultOf routeFarmers routeDemand cfg score rng).2,
    (runSA_ok_iff routeFarmers routeDemand cfg score rng _).2
      ⟨by decide, by norm_num [routeDemand], by decide, rfl⟩, ?_, ?_⟩
  · show ((routeFarmers.map Farmer.id).zip
        (finalState routeFarmers routeDemand cfg score rng).bestAssign).map Prod.fst
      = List.range 10
    rw [List.map_fst_zip _ _ (by simp [hlen])]
    rfl
  · have hsnd : (resultOf routeFarmers routeDemand cfg score rng).1.map Prod.snd =
        (finalState routeFarmers routeDemand cfg score rng).bestAssign := by
      show ((routeFarmers.map Farmer.id).zip
          (finalState routeFarmers routeDemand cfg score rng).bestAssign).map Prod.snd
        = _
      exact List.map_snd_zip _ _ (by simp [hlen])
    rw [hsnd]
    apply demandTerm_pos
    · intro p hp
      exact hok.2.2.2.1 p.2 (List.of_mem_zip hp).2
    · have htarget : (cropKeys routeDemand).map (targetOf routeDemand) =
          [20, 15, 15] := rfl
      have hcap : ((routeFarmers.zip
          (finalState routeFarmers routeDemand cfg score rng).bestAssign).map
            fun p => p.1.capacity).sum = (routeFarmers.map Farmer.capacity).sum :=
        zip_map_capacity _ _ (le_of_eq hlen.symm)
      rw [htarget, hcap, show routeFarmers.map Farmer.capacity =
        List.replicate 10 1 from rfl]
      simp [List.sum_replicate]
      norm_num

/-- Claim C1: the `confidence` value in the `/api/optimize` response is
the `random.randint(94, 99)` draw — always in `[94, 99]`, hitting each
value in `[94, 99]` for exactly one residue class of the underlying
uniform draw — and it is independent of the allocation and heatmap the
optimizer returned, hence not derived from the optimizer's energy or
score. -/
theorem confidence_random_independent :
    (∀ (r : ℕ) (a : List String) (h : List (ℕ × String × ℚ)),
      (optimizeHandler a h r).confidence = toString (94 + r % 6) ++ "%") ∧
    (∀ r : ℕ, 94 ≤ randint 94 99 r ∧ randint 94 99 r ≤ 99) ∧
    (∀ v : ℕ, 94 ≤ v → v ≤ 99 →
      ((Finset.range 6).filter (fun r => randint 94 99 r = v)).card = 1) ∧
    (∀ (r : ℕ) (a₁ a₂ : List String) (h₁ h₂ : List (ℕ × String × ℚ)),
      (optimizeHandler a₁ h₁ r).confidence = (optimizeHandler a₂ h₂ r).confidence) := by
  refine ⟨fun r a h => rfl, fun r => ⟨Nat.le_add_right _ _, ?_⟩, ?_, fun r a₁ a₂ h₁ h₂ => rfl⟩
  · have : r % 6 < 6 := Nat.mod_lt _ (by omega)
    unfold randint
    omega
  · intro v h1 h2
    interval_cases v <;> decide

/-- Witness for C1 at a concrete draw and value. -/
theorem confidence_random_independent_witness :
    94 ≤ 97 ∧ 97 ≤ 99 ∧
      ((Finset.range 6).filter (fun r => randint 94 99 r = 97)).card = 1 :=
  ⟨by omega, by omega,
    confidence_random_independent.2.2.1 97 (by omega) (by omega)⟩

/-- Claim C7: for every location string (and every current month and
rainfall draw), `get_seasonal_forecast` returns a mapping that contains
the five fields promised by the climate boundary: a season name, an
average temperature in Celsius, a rainfall amount in mm, a climate type,
and a risk factor. -/
theorem forecast_has_promised_fields (location : String) (month : ℕ) (u : ℚ) :
    "season_name" ∈ (getSeasonalForecast location month u).map Prod.fst ∧
    "avg_temp_c" ∈ (getSeasonalForecast location month u).map Prod.fst ∧
    "rainfall_mm" ∈ (getSeasonalForecast location month u).map Prod.fst ∧
    "climate_type" ∈ (getSeasonalForecast location month u).map Prod.fst ∧
    "risk_factor" ∈ (getSeasonalForecast location month u).map Prod.fst := by
  have hk : (getSeasonalForecast location month u).map Prod.fst =
      ["location", "season_name", "avg_temp_c", "rainfall_mm",
       "climate_type", "risk_factor"] := rfl
  rw [hk]
  refine ⟨?_, ?_, ?_, ?_, ?_⟩ <;> simp

/-- Claim C8: for every location whose capitalized form is not one of
the seven known district keys, `get_seasonal_forecast` does not fail: it
silently falls back to the Jenin profile (base temperature 25, rain
factor 1.2, Mediterranean type) and returns the forecast built from
it. -/
theorem forecast_unknown_location_fallback (location : String) (month : ℕ) (u : ℚ)
    (h : pyCapitalize location ∉ districtKeys) :
    lookupProfile (pyCapitalize location) = jeninProfile ∧
    jeninProfile = ⟨25, 12/10, "Mediterranean"⟩ ∧
    getSeasonalForecast location month u =
      buildForecast (pyCapitalize location) jeninProfile month u := by
  simp only [districtKeys, List.mem_cons, List.not_mem_nil, or_false, not_or] at h
  obtain ⟨h1, h2, h3, h4, h5, h6, h7⟩ := h
  have hlk : climate_profiles.lookup (pyCapitalize location) = none := by
    simp [climate_profiles, List.lookup, beq_eq_false_iff_ne.2 h1,
      beq_eq_false_iff_ne.2 h2, beq_eq_false_iff_ne.2 h3, beq_eq_false_iff_ne.2 h4,
      beq_eq_false_iff_ne.2 h5, beq_eq_false_iff_ne.2 h6, beq_eq_false_iff_ne.2 h7]
  have hp : lookupProfile (pyCapitalize location) = jeninProfile := by
    simp [lookupProfile, hlk]
  exact ⟨hp, rfl, by simp only [getSeasonalForecast, hp]⟩

/-- Witness for C8 at a location outside the district table. -/
theorem forecast_unknown_location_fallback_witness :
    lookupProfile (pyCapitalize "atlantis") = jeninProfile ∧
    jeninProfile = ⟨25, 12/10, "Mediterranean"⟩ ∧
    getSeasonalForecast "atlantis" 4 1 =
      buildForecast (pyCapitalize "atlantis") jeninProfile 4 1 :=
  forecast_unknown_location_fallback "atlantis" 4 1 (by decide)

/-- Claim C9: in the `/api/market` handler the price computation never
divides by zero: whenever the volatility-adjusted demand is `≤ 0` the
divisor used is 1, and for every base demand and volatility draw the
divisor is positive, so each of the six price values is
well-defined. -/
theorem market_divisor_positive (base : ℚ) (vol : ℚ) :
    (adjustedDemand base vol ≤ 0 → marketDivisor base vol = 1) ∧
    0 < marketDivisor base vol ∧ ((marketDivisor base vol : ℚ) ≠ 0) := by
  unfold marketDivisor
  by_cases h : 0 < adjustedDemand base vol
  · rw [if_pos h]
    refine ⟨fun hle => absurd h (not_lt.2 hle), h, ?_⟩
    exact_mod_cast ne_of_gt h
  · rw [if_neg h]
    exact ⟨fun _ => rfl, one_pos, one_ne_zero⟩

/-- Witness for C9 at a draw that makes the adjusted demand
nonpositive. -/
theorem market_divisor_positive_witness :
    marketDivisor 0 0 = 1 ∧ 0 < marketDivisor 0 0 :=
  ⟨(market_divisor_positive 0 0).1 (by norm_num [adjustedDemand, truncInt]),
   (market_divisor_positive 0 0).2.1⟩

/-- Claim C10: for every soil string that is not one of the keys Clay,
Loamy, or Sandy, the `/api/analyze` handler falls back to the Default
nutrient profile `{n: 50, p: 50, k: 50}` and still scores all seven
crops of the crop list: the result names are a permutation of
`CROPS_LIST` and the result has seven entries. -/
theorem analyze_unknown_soil_fallback (soil : String) (predict : String → NPK → ℚ)
    (h : soil ∉ (["Clay", "Loamy", "Sandy"] : List String)) :
    chemProfile soil = ⟨50, 50, 50⟩ ∧
    List.Perm ((analyze soil predict).map CropResult.name) CROPS_LIST ∧
    (analyze soil predict).length = 7 := by
  simp only [List.mem_cons, List.not_mem_nil, or_false, not_or] at h
  obtain ⟨h1, h2, h3⟩ := h
  have hprof : chemProfile soil = ⟨50, 50, 50⟩ := by
    by_cases hd : soil = "Default"
    · simp [chemProfile, SOIL_NUTRIENT_MAP, List.lookup, hd]
    · simp [chemProfile, SOIL_NUTRIENT_MAP, List.lookup, beq_eq_false_iff_ne.2 h1,
        beq_eq_false_iff_ne.2 h2, beq_eq_false_iff_ne.2 h3, beq_eq_false_iff_ne.2 hd]
  have hnames : (CROPS_LIST.map (cropEntry predict (chemProfile soil))).map
      CropResult.name = CROPS_LIST := by
    rw [List.map_map]
    exact (List.map_congr_left (fun a _ => rfl)).trans (List.map_id _)
  have hperm : List.Perm ((analyze soil predict).map CropResult.name) CROPS_LIST := by
    unfold analyze
    exact (List.Perm.map CropResult.name (List.mergeSort_perm _ _)).trans
      (hnames ▸ List.Perm.refl _)
  refine ⟨hprof, hperm, ?_⟩
  have := hperm.length_eq
  simpa using this

/-- Witness for C10 at a soil type outside the map. -/
theorem analyze_unknown_soil_fallback_witness :
    chemProfile "Peat" = ⟨50, 50, 50⟩ ∧
    List.Perm ((analyze "Peat" (fun _ _ => 0)).map CropResult.name) CROPS_LIST ∧
    (analyze "Peat" (fun _ _ => 0)).length = 7 :=
  analyze_unknown_soil_fallback "Peat" (fun _ _ => 0) (by decide)

end AgriQ
